import Mathlib

/-!
Verification development for the Anthropic conversational-agent adapter
(`src/python/src/multi_agent_orchestrator/agents/anthropic_agent.py`).

The Python module is shallowly embedded below.  Transport responses are
scripted (one model response per recursion round), tool handlers are
arbitrary Lean functions, and Python exceptions are modelled with an
explicit error type.  Loops that Python writes with a mutable
`max_recursions` counter are written with a structural fuel argument;
the fuel is initialised to `budget.toNat`, so `fuel = 0` holds exactly
when Python's loop guard `max_recursions > 0` fails, and the `Int`
counter itself is threaded through unchanged so that its successive
values can be inspected.
-/

namespace AnthropicAgent

/-- Python exceptions that the embedded code can raise. -/
inductive PyErr where
  | valueError
  | typeError
  | attributeError
  | indexError
  | runtimeError
deriving DecidableEq, Repr

/-- One content block of a model response.  `type` is the block's tag
(`"text"`, `"tool_use"`, ...); `text` is `some _` exactly when the block
object carries a `.text` attribute (SDK tool-use blocks do not). -/
structure ContentBlock where
  type : String
  text : Option String
deriving DecidableEq, Repr

/-- The dict `\x7b"text": t\x7d` used by the agent when it builds a final
`ConversationMessage`. -/
def mkTextBlock (t : String) : ContentBlock := ⟨"text", some t⟩

/-- Substring test on character lists: Python's `needle in hay`. -/
def containsSub (hay needle : List Char) : Bool :=
  match hay with
  | [] => needle.isEmpty
  | _ :: t => needle.isPrefixOf hay || containsSub t needle

/-- Python `'tool_use' in content.type`. -/
def hasToolUseBlock (b : ContentBlock) : Bool :=
  containsSub b.type.toList "tool_use".toList

/-- A complete (non-streamed) model response: its ordered content blocks. -/
structure SingleResponse where
  content : List ContentBlock
deriving DecidableEq, Repr

/-- `ConversationMessage` from `multi_agent_orchestrator.types`: a role
string plus content blocks. -/
structure ConversationMessage where
  role : String
  content : List ContentBlock
deriving DecidableEq, Repr

/-- Models `ParticipantRole.ASSISTANT.value` (external to `src/`). -/
def assistantRole : String := "assistant"

/-- Models `AgentProviderType.ANTHROPIC.value` (external to `src/`);
the claims only use it as an opaque provider-identifier tag. -/
def anthropicProvider : String := "anthropic"

/-- One entry of `payload_input["messages"]` (which the agent aliases with
the `messages` conversation list): a plain user/assistant turn, the raw
assistant content appended before a tool dispatch, or the tool response
appended verbatim.  `α` is the (opaque) type of tool-handler results. -/
inductive Turn (α : Type) where
  | user (text : String)
  | assistantBlocks (content : List ContentBlock)
  | toolResult (r : α)
deriving DecidableEq

/-- Shape of `tool_config["tool"]`: an `AgentTools` registry object, a raw
list of tools, or anything else. -/
inductive ToolField where
  | registry
  | rawList
  | invalid
deriving DecidableEq, Repr

/-- The recognised keys of the `tool_config` dict.  `toolMaxRecursions`
is `some n` when the key is present; `useToolHandler` records whether the
`'useToolHandler'` key is present. -/
structure ToolConfig where
  tool : ToolField
  toolMaxRecursions : Option Int
  useToolHandler : Bool
deriving DecidableEq, Repr

/-- `self.default_max_recursions`. -/
def default_max_recursions : Int := 5

/-- `_get_max_recursions`: 1 without tool configuration, otherwise
`tool_config.get('toolMaxRecursions', default_max_recursions)`. -/
def get_max_recursions (tc : Option ToolConfig) : Int :=
  match tc with
  | none => 1
  | some t => t.toolMaxRecursions.getD default_max_recursions

/-- `_prepare_tool_config`, restricted to whether it raises: an
`AgentTools` registry and a raw list both serialize successfully; any
other shape raises `RuntimeError("Invalid tool config")`. -/
def prepare_tool_config (t : ToolField) : Except PyErr Unit :=
  match t with
  | .registry => .ok ()
  | .rawList => .ok ()
  | .invalid => .error .runtimeError

/-- `_process_tool_block`.  `custom` is the configured
`tool_config['useToolHandler']` callback, `registryH` is
`AgentTools.tool_handler`; `ρ` is the type of the tool-bearing model
response, `α` the type of tool results.  With no tool configuration at
all, Python's `'useToolHandler' in None` raises `TypeError`. -/
def process_tool_block {ρ α : Type}
    (custom : ρ → List (Turn α) → α)
    (registryH : String → ρ → List (Turn α) → α)
    (tc : Option ToolConfig) (resp : ρ) (conv : List (Turn α)) :
    Except PyErr α :=
  match tc with
  | none => .error .typeError
  | some cfg =>
    if cfg.useToolHandler then .ok (custom resp conv)
    else
      match cfg.tool with
      | .registry => .ok (registryH anthropicProvider resp conv)
      | _ => .error .valueError

/-- `True` when every tool dispatch succeeds: a custom handler or an
`AgentTools` registry is configured. -/
def dispatch_total (tc : Option ToolConfig) : Bool :=
  match tc with
  | none => false
  | some cfg =>
    cfg.useToolHandler ||
      (match cfg.tool with
       | .registry => true
       | _ => false)

/-- Python `content[0].text`: `IndexError` on an empty block list,
`AttributeError` when the first block has no `.text` attribute. -/
def first_block_text (content : List ContentBlock) : Except PyErr String :=
  match content with
  | [] => .error .indexError
  | b :: _ =>
    match b.text with
    | none => .error .attributeError
    | some t => .ok t

/-- The final line of `_handle_single_response_loop`:
`ConversationMessage(role=ASSISTANT, content=[\x7b"text": llm_response.content[0].text\x7d])`,
where `llm_response` is still `None` if the loop never ran. -/
def final_from (last : Option SingleResponse) : Except PyErr ConversationMessage :=
  match last with
  | none => .error .attributeError
  | some r =>
    match first_block_text r.content with
    | .error e => .error e
    | .ok t => .ok ⟨assistantRole, [mkTextBlock t]⟩

instance {ε σ : Type} [DecidableEq ε] [DecidableEq σ] : DecidableEq (Except ε σ) := fun x y =>
  match x, y with
  | .error a, .error b =>
    if h : a = b then .isTrue (by rw [h])
    else .isFalse (by intro hc; cases hc; exact h rfl)
  | .error _, .ok _ => .isFalse (by intro hc; cases hc)
  | .ok _, .error _ => .isFalse (by intro hc; cases hc)
  | .ok a, .ok b =>
    if h : a = b then .isTrue (by rw [h])
    else .isFalse (by intro hc; cases hc; exact h rfl)

/-- Observable trace of one run of `_handle_single_response_loop`:
number of transport calls, number of successful tool dispatches, the
successive values of `max_recursions` observed right after each
`max_recursions -= 1`, the final `payload_input["messages"]` list, and
the returned message or the exception that propagated. -/
structure LoopTrace (α : Type) where
  rounds : Nat
  toolCalls : Nat
  counters : List Int
  msgs : List (Turn α)
  result : Except PyErr ConversationMessage
deriving DecidableEq

/-- Body of `_handle_single_response_loop`.  `script round` is the model
response returned by the `round`-th transport call; `fuel` is the number
of loop iterations still allowed by the `max_recursions > 0` guard
(initialised to `budget.toNat` below); `budget` is the Python counter
itself; `last` is the current value of `llm_response`. -/
def single_loop_aux {α : Type} (script : Nat → SingleResponse)
    (custom : SingleResponse → List (Turn α) → α)
    (registryH : String → SingleResponse → List (Turn α) → α)
    (tc : Option ToolConfig) :
    Nat → Int → Nat → List (Turn α) → Option SingleResponse → LoopTrace α
  | 0, _, _, msgs, last => ⟨0, 0, [], msgs, final_from last⟩
  | fuel + 1, budget, round, msgs, _ =>
    let r := script round
    if r.content.any hasToolUseBlock then
      let msgs1 := msgs ++ [Turn.assistantBlocks r.content]
      match process_tool_block custom registryH tc r msgs1 with
      | .error e => ⟨1, 0, [], msgs1, .error e⟩
      | .ok tr =>
        let rest := single_loop_aux script custom registryH tc fuel (budget - 1)
          (round + 1) (msgs1 ++ [Turn.toolResult tr]) (some r)
        ⟨rest.rounds + 1, rest.toolCalls + 1, (budget - 1) :: rest.counters,
          rest.msgs, rest.result⟩
    else
      ⟨1, 0, [budget - 1], msgs, final_from (some r)⟩

/-- `_handle_single_response_loop` run to completion with recursion
budget `budget` (the `max_recursions` argument). -/
def handle_single_response_loop {α : Type} (script : Nat → SingleResponse)
    (custom : SingleResponse → List (Turn α) → α)
    (registryH : String → SingleResponse → List (Turn α) → α)
    (tc : Option ToolConfig) (msgs : List (Turn α)) (budget : Int) :
    LoopTrace α :=
  single_loop_aux script custom registryH tc budget.toNat budget 0 msgs none

/-! ### Streaming mode -/

/-- One event of the transport's event stream, as inspected by
`handle_streaming_response`: a text fragment, a `content_block_stop`
marker, or any other event type (skipped). -/
inductive StreamEvent where
  | text (s : String)
  | contentBlockStop
  | other (tag : String)
deriving DecidableEq, Repr

/-- The scripted behaviour of one streamed transport round: the events
the stream yields, and the content of `stream.get_final_message()`. -/
structure StreamRound where
  events : List StreamEvent
  final : SingleResponse
deriving DecidableEq, Repr

/-- An `AgentStreamResponse` chunk: either an incremental text fragment
or a chunk carrying a `final_message`. -/
inductive StreamChunk where
  | text (s : String)
  | finalMsg (m : ConversationMessage)
deriving DecidableEq, Repr

/-- The event-consumption loop of `handle_streaming_response`: for each
event, a `"text"` event is forwarded (after notifying the
`on_llm_new_token` hook), the first `"content_block_stop"` event breaks
the loop, and any other event is skipped. -/
def stream_scan : List StreamEvent → List String
  | [] => []
  | .text s :: rest => s :: stream_scan rest
  | .contentBlockStop :: _ => []
  | .other _ :: rest => stream_scan rest

/-- What one call of `handle_streaming_response` produces: the arguments
of the successive `on_llm_new_token` hook invocations, and the yielded
chunks (the forwarded text fragments followed by the chunk carrying the
accumulated final message). -/
structure RoundOut where
  tokens : List String
  chunks : List StreamChunk
deriving DecidableEq, Repr

/-- `handle_streaming_response` on a scripted round. -/
def handle_streaming_response (rd : StreamRound) : RoundOut :=
  { tokens := stream_scan rd.events
    chunks := (stream_scan rd.events).map StreamChunk.text ++
      [StreamChunk.finalMsg ⟨assistantRole, rd.final.content⟩] }

/-- The chunk-consumption loop inside `stream_generator`: chunks whose
`final_message` is set update the (nonlocal) `final_response` variable,
all other chunks are yielded to the caller.  Returns the yielded chunks
and the last `final_response` value. -/
def consume_round (cs : List StreamChunk) (fr : Option ConversationMessage) :
    List StreamChunk × Option ConversationMessage :=
  match cs with
  | [] => ([], fr)
  | .finalMsg m :: rest => consume_round rest (some m)
  | .text s :: rest =>
    let p := consume_round rest fr
    (.text s :: p.1, p.2)

/-- Observable trace of one run of `_handle_streaming`'s generator:
transport rounds opened, successful tool dispatches, successive
`max_recursions` values observed right after each `max_recursions -= 1`,
chunks yielded to the caller, `on_llm_new_token` hook arguments, the
final `payload_input["messages"]` list, and the exception (if any) that
ended the generator. -/
structure StreamTrace (α : Type) where
  rounds : Nat
  toolCalls : Nat
  counters : List Int
  chunks : List StreamChunk
  tokens : List String
  msgs : List (Turn α)
  error : Option PyErr
deriving DecidableEq

/-- Body of `stream_generator` in `_handle_streaming`.  As for the
single-response loop, `fuel` is initialised to `budget.toNat` so that
`fuel = 0` holds exactly when the guard `max_recursions > 0` fails;
`fr0` is the nonlocal `final_response` variable. -/
def streaming_aux {α : Type} (script : Nat → StreamRound)
    (custom : ConversationMessage → List (Turn α) → α)
    (registryH : String → ConversationMessage → List (Turn α) → α)
    (tc : Option ToolConfig) :
    Nat → Int → Nat → List (Turn α) → Option ConversationMessage → StreamTrace α
  | 0, _, _, msgs, _ => ⟨0, 0, [], [], [], msgs, none⟩
  | fuel + 1, budget, round, msgs, fr0 =>
    let out := handle_streaming_response (script round)
    let p := consume_round out.chunks fr0
    match p.2 with
    | none =>
      -- `final_response` still `None`: `final_response.content` raises
      ⟨1, 0, [], p.1, out.tokens, msgs, some .attributeError⟩
    | some fr =>
      if fr.content.any hasToolUseBlock then
        let msgs1 := msgs ++ [Turn.assistantBlocks fr.content]
        match process_tool_block custom registryH tc fr msgs1 with
        | .error e => ⟨1, 0, [], p.1, out.tokens, msgs1, some e⟩
        | .ok tr =>
          let rest := streaming_aux script custom registryH tc fuel (budget - 1)
            (round + 1) (msgs1 ++ [Turn.toolResult tr]) (some fr)
          ⟨rest.rounds + 1, rest.toolCalls + 1, (budget - 1) :: rest.counters,
            p.1 ++ rest.chunks, out.tokens ++ rest.tokens, rest.msgs, rest.error⟩
      else
        match first_block_text fr.content with
        | .error e => ⟨1, 0, [], p.1, out.tokens, msgs, some e⟩
        | .ok t =>
          ⟨1, 0, [budget - 1],
            p.1 ++ [StreamChunk.finalMsg ⟨assistantRole, [mkTextBlock t]⟩],
            out.tokens, msgs, none⟩

/-- `_handle_streaming`'s generator run to exhaustion with recursion
budget `budget`. -/
def handle_streaming {α : Type} (script : Nat → StreamRound)
    (custom : ConversationMessage → List (Turn α) → α)
    (registryH : String → ConversationMessage → List (Turn α) → α)
    (tc : Option ToolConfig) (msgs : List (Turn α)) (budget : Int) :
    StreamTrace α :=
  streaming_aux script custom registryH tc budget.toNat budget 0 msgs none

/-! ### Prompt placeholder substitution -/

/-- A `TemplateVariables` value: a string, or a list of strings. -/
inductive TemplateValue where
  | str (s : String)
  | items (l : List String)
deriving DecidableEq, Repr

/-- `'\n'.join(value) if isinstance(value, list) else str(value)`. -/
def value_text : TemplateValue → String
  | .str s => s
  | .items l => String.intercalate "\n" l

/-- A variable mapping, with Python's `key in variables` lookup. -/
def lookup_var (vars : List (String × TemplateValue)) (k : String) :
    Option TemplateValue :=
  (vars.find? (fun p => p.1 == k)).map (fun p => p.2)

/-- A character matched by the regex class `\w` (modelled over ASCII:
letters, digits and the underscore). -/
def isWordChar (c : Char) : Bool := c.isAlphanum || c == '_'

/-- The `replace` callback of `replace_placeholders`: the variable's
value when `name` is in the mapping, the whole placeholder
(`match.group(0)`) verbatim otherwise. -/
def replace_match (vars : List (String × TemplateValue)) (name : List Char) :
    List Char :=
  match lookup_var vars (String.mk name) with
  | some v => (value_text v).toList
  | none => '\x7b' :: '\x7b' :: (name ++ '\x7d' :: '\x7d' :: [])

/-- The left-to-right scan of `re.sub(r'\x7b\x7b(\w+)\x7d\x7d', replace, template)`.
At each position, either the pattern matches (two braces, one or more
word characters, two braces) and scanning resumes after the match, or
one character is emitted and scanning advances by one.  Every step
consumes at least one character, so fuel `l.length` (supplied by
`sub_chars`) is never exhausted. -/
def sub_fuel (vars : List (String × TemplateValue)) :
    Nat → List Char → List Char
  | 0, l => l
  | _ + 1, [] => []
  | _ + 1, [c] => [c]
  | fuel + 1, c :: c2 :: rest2 =>
    if c = '\x7b' ∧ c2 = '\x7b' then
      if rest2.takeWhile isWordChar ≠ [] ∧
          (rest2.dropWhile isWordChar).take 2 = ['\x7d', '\x7d'] then
        replace_match vars (rest2.takeWhile isWordChar) ++
          sub_fuel vars fuel ((rest2.dropWhile isWordChar).drop 2)
      else c :: sub_fuel vars fuel (c2 :: rest2)
    else c :: sub_fuel vars fuel (c2 :: rest2)

/-- Substitution over a character list. -/
def sub_chars (vars : List (String × TemplateValue)) (l : List Char) :
    List Char :=
  sub_fuel vars l.length l

/-- `AnthropicAgent.replace_placeholders`. -/
def replace_placeholders (template : String)
    (vars : List (String × TemplateValue)) : String :=
  String.mk (sub_chars vars template.toList)

/-! ### Constructor validation (`AnthropicAgent.__init__`) -/

/-- The kind of client object passed in the options (or constructed):
an `AsyncAnthropic` client, a synchronous `Anthropic` client, or any
other object. -/
inductive ClientKind where
  | asyncAnthropic
  | syncAnthropic
  | otherObj
deriving DecidableEq, Repr

/-- The credential/client validation of `__init__` and the client it
ends up with.  `apiKey` is the truthiness of `options.api_key`,
`client` is the provided client (if any), `streaming` the streaming
flag. -/
def agent_init (apiKey : Bool) (client : Option ClientKind)
    (streaming : Bool) : Except PyErr ClientKind :=
  if !apiKey && client.isNone then .error .valueError
  else
    match client with
    | some c =>
      if streaming then
        if c = .asyncAnthropic then .ok c else .error .valueError
      else
        if c = .syncAnthropic then .ok c else .error .valueError
    | none =>
      if streaming then .ok .asyncAnthropic else .ok .syncAnthropic

/-- Follows the wording of the claim about construction: raise exactly
when no key and no client are given, or a provided client does not match
the streaming flag; otherwise succeed with a client of the kind matching
the streaming flag. -/
def agent_init_claim (apiKey : Bool) (client : Option ClientKind)
    (streaming : Bool) : Except PyErr ClientKind :=
  if (!apiKey ∧ client = none) ∨
      (∃ c, client = some c ∧ streaming ∧ c ≠ .asyncAnthropic) ∨
      (∃ c, client = some c ∧ ¬streaming ∧ c ≠ .syncAnthropic) then
    .error .valueError
  else .ok (if streaming then .asyncAnthropic else .syncAnthropic)

/-! ### Statement helpers and concrete inputs -/

/-- Whether a chunk is a terminal chunk (carries a `final_message`). -/
def isFinalChunk : StreamChunk → Bool
  | .finalMsg _ => true
  | .text _ => false

/-- The text chunks forwarded while streaming round `i`. -/
def round_texts (script : Nat → StreamRound) (i : Nat) : List StreamChunk :=
  (stream_scan (script i).events).map StreamChunk.text

/-- The text chunks forwarded by `n` consecutive streaming rounds
starting at round `r0`, concatenated in arrival order. -/
def texts_join (script : Nat → StreamRound) (r0 n : Nat) : List StreamChunk :=
  ((List.range n).map (fun i => round_texts script (r0 + i))).flatten

/-- A model response that is a bare tool-use block (no text anywhere). -/
def toolOnlyScript : Nat → SingleResponse := fun _ => ⟨[⟨"tool_use", none⟩]⟩

/-- A model response with a single text block `"4"`. -/
def textScript : Nat → SingleResponse := fun _ => ⟨[⟨"text", some "4"⟩]⟩

/-- A model response with a leading text block and a tool-use block. -/
def mixedToolScript : Nat → SingleResponse :=
  fun _ => ⟨[⟨"text", some "partial"⟩, ⟨"tool_use", none⟩]⟩

/-- Trivial tool handlers over `Unit` results (single-response shape). -/
def unitCustom : SingleResponse → List (Turn Unit) → Unit := fun _ _ => ()

def unitRegistry : String → SingleResponse → List (Turn Unit) → Unit :=
  fun _ _ _ => ()

/-- Trivial tool handlers over `Unit` results (streaming shape). -/
def unitCustomS : ConversationMessage → List (Turn Unit) → Unit := fun _ _ => ()

def unitRegistryS : String → ConversationMessage → List (Turn Unit) → Unit :=
  fun _ _ _ => ()

/-- Registry tool config with `toolMaxRecursions = 1`. -/
def regCfgOne : ToolConfig := ⟨.registry, some 1, false⟩

/-- Registry tool config with `toolMaxRecursions = 2`. -/
def regCfgTwo : ToolConfig := ⟨.registry, some 2, false⟩

/-- Registry tool config with `toolMaxRecursions = 5`. -/
def regCfgFive : ToolConfig := ⟨.registry, some 5, false⟩

/-- Raw-list tool config without a custom handler, budget 2. -/
def rawCfgTwo : ToolConfig := ⟨.rawList, some 2, false⟩

/-- Streaming script whose every round forwards one text fragment and
ends in a tool-use-only final message. -/
def c1Script : Nat → StreamRound :=
  fun _ => ⟨[.text "a"], ⟨[⟨"tool_use", none⟩]⟩⟩

/-- Streaming script: round 0 forwards `"a"` and requests a tool, round 1
forwards `"b"` and ends with plain text `"done"`. -/
def c1wScript : Nat → StreamRound := fun n =>
  if n = 0 then ⟨[.text "a"], ⟨[⟨"tool_use", none⟩]⟩⟩
  else ⟨[.text "b"], ⟨[⟨"text", some "done"⟩]⟩⟩

/-! ### Helper lemmas -/

theorem consume_round_text_final (ts : List String) (M : ConversationMessage)
    (fr : Option ConversationMessage) :
    consume_round (ts.map StreamChunk.text ++ [StreamChunk.finalMsg M]) fr =
      (ts.map StreamChunk.text, some M) := by
  induction ts with
  | nil => simp [consume_round]
  | cons s rest ih => simp [consume_round, ih]

theorem dispatch_ok {ρ α : Type} (custom : ρ → List (Turn α) → α)
    (registryH : String → ρ → List (Turn α) → α) (tc : Option ToolConfig)
    (hd : dispatch_total tc = true) (resp : ρ) (conv : List (Turn α)) :
    ∃ v, process_tool_block custom registryH tc resp conv = .ok v := by
  match tc with
  | none => simp [dispatch_total] at hd
  | some cfg =>
    by_cases hu : cfg.useToolHandler
    · exact ⟨custom resp conv, by simp [process_tool_block, hu]⟩
    · match hf : cfg.tool with
      | .registry =>
        exact ⟨registryH anthropicProvider resp conv,
          by simp [process_tool_block, hu, hf]⟩
      | .rawList => simp [dispatch_total, hu, hf] at hd
      | .invalid => simp [dispatch_total, hu, hf] at hd

theorem single_aux_rounds_le {α : Type} (script : Nat → SingleResponse)
    (custom : SingleResponse → List (Turn α) → α)
    (registryH : String → SingleResponse → List (Turn α) → α)
    (tc : Option ToolConfig) :
    ∀ (fuel : Nat) (m : Int) (r0 : Nat) (msgs : List (Turn α))
      (last : Option SingleResponse),
      (single_loop_aux script custom registryH tc fuel m r0 msgs last).rounds ≤ fuel := by
  intro fuel
  induction fuel with
  | zero => intro m r0 msgs last; simp [single_loop_aux]
  | succ f ih =>
    intro m r0 msgs last
    simp only [single_loop_aux]
    by_cases h : (script r0).content.any hasToolUseBlock = true
    · rw [if_pos h]
      cases hp : process_tool_block custom registryH tc (script r0)
          (msgs ++ [Turn.assistantBlocks (script r0).content]) with
      | error e => exact Nat.succ_le_succ (Nat.zero_le f)
      | ok tr =>
        exact Nat.succ_le_succ (ih (m - 1) (r0 + 1)
          ((msgs ++ [Turn.assistantBlocks (script r0).content]) ++ [Turn.toolResult tr])
          (some (script r0)))
    · rw [if_neg h]
      exact Nat.succ_le_succ (Nat.zero_le f)

theorem single_aux_counters_nonneg {α : Type} (script : Nat → SingleResponse)
    (custom : SingleResponse → List (Turn α) → α)
    (registryH : String → SingleResponse → List (Turn α) → α)
    (tc : Option ToolConfig) :
    ∀ (fuel : Nat) (m : Int) (r0 : Nat) (msgs : List (Turn α))
      (last : Option SingleResponse), fuel ≤ m.toNat →
      ∀ v ∈ (single_loop_aux script custom registryH tc fuel m r0 msgs last).counters,
        0 ≤ v := by
  intro fuel
  induction fuel with
  | zero => intro m r0 msgs last _ v hv; simp [single_loop_aux] at hv
  | succ f ih =>
    intro m r0 msgs last hm v hv
    simp only [single_loop_aux] at hv
    split at hv
    · split at hv
      · exact absurd hv (List.not_mem_nil v)
      · replace hv := List.mem_cons.mp hv
        rcases hv with rfl | hv
        · omega
        · exact ih (m - 1) (r0 + 1) _ _ (by omega) v hv
    · replace hv := List.mem_cons.mp hv
      rcases hv with rfl | hv
      · omega
      · exact absurd hv (List.not_mem_nil v)

theorem streaming_aux_counters_nonneg {α : Type} (script : Nat → StreamRound)
    (custom : ConversationMessage → List (Turn α) → α)
    (registryH : String → ConversationMessage → List (Turn α) → α)
    (tc : Option ToolConfig) :
    ∀ (fuel : Nat) (m : Int) (r0 : Nat) (msgs : List (Turn α))
      (fr : Option ConversationMessage), fuel ≤ m.toNat →
      ∀ v ∈ (streaming_aux script custom registryH tc fuel m r0 msgs fr).counters,
        0 ≤ v := by
  intro fuel
  induction fuel with
  | zero => intro m r0 msgs fr _ v hv; simp [streaming_aux] at hv
  | succ f ih =>
    intro m r0 msgs fr hm v hv
    simp only [streaming_aux] at hv
    split at hv
    · exact absurd hv (List.not_mem_nil v)
    · split at hv
      · split at hv
        · exact absurd hv (List.not_mem_nil v)
        · replace hv := List.mem_cons.mp hv
          rcases hv with rfl | hv
          · omega
          · exact ih (m - 1) (r0 + 1) _ _ (by omega) v hv
      · split at hv
        · exact absurd hv (List.not_mem_nil v)
        · replace hv := List.mem_cons.mp hv
          rcases hv with rfl | hv
          · omega
          · exact absurd hv (List.not_mem_nil v)

theorem single_aux_lt_iff {α : Type} (script : Nat → SingleResponse)
    (custom : SingleResponse → List (Turn α) → α)
    (registryH : String → SingleResponse → List (Turn α) → α)
    (tc : Option ToolConfig) (hd : dispatch_total tc = true) :
    ∀ (fuel : Nat) (m : Int) (r0 : Nat) (msgs : List (Turn α))
      (last : Option SingleResponse),
      ((single_loop_aux script custom registryH tc fuel m r0 msgs last).rounds < fuel ↔
        ∃ i, i + 1 < fuel ∧ (script (r0 + i)).content.any hasToolUseBlock = false) := by
  intro fuel
  induction fuel with
  | zero =>
    intro m r0 msgs last
    constructor
    · intro hlt; exact absurd hlt (Nat.not_lt_zero _)
    · rintro ⟨i, hi, _⟩; omega
  | succ f ih =>
    intro m r0 msgs last
    simp only [single_loop_aux]
    by_cases h : (script r0).content.any hasToolUseBlock = true
    · rw [if_pos h]
      obtain ⟨tr, hp⟩ := dispatch_ok custom registryH tc hd (script r0)
        (msgs ++ [Turn.assistantBlocks (script r0).content])
      rw [hp]
      have hrec := ih (m - 1) (r0 + 1)
        ((msgs ++ [Turn.assistantBlocks (script r0).content]) ++ [Turn.toolResult tr])
        (some (script r0))
      show (single_loop_aux script custom registryH tc f (m - 1) (r0 + 1)
          ((msgs ++ [Turn.assistantBlocks (script r0).content]) ++ [Turn.toolResult tr])
          (some (script r0))).rounds + 1 < f + 1 ↔ _
      constructor
      · intro hlt
        obtain ⟨i, hi, hno⟩ := hrec.mp (by omega)
        refine ⟨i + 1, by omega, ?_⟩
        rwa [show r0 + (i + 1) = r0 + 1 + i from by omega]
      · rintro ⟨i, hi, hno⟩
        rcases i with _ | j
        · rw [Nat.add_zero] at hno
          rw [hno] at h
          cases h
        · rw [show r0 + (j + 1) = r0 + 1 + j from by omega] at hno
          have := hrec.mpr ⟨j, by omega, hno⟩
          omega
    · rw [if_neg h]
      show 1 < f + 1 ↔ _
      constructor
      · intro h1
        refine ⟨0, by omega, ?_⟩
        have hfalse : (script r0).content.any hasToolUseBlock = false :=
          Bool.eq_false_iff.mpr h
        simpa using hfalse
      · rintro ⟨i, hi, _⟩
        omega

theorem texts_join_zero (script : Nat → StreamRound) (r0 : Nat) :
    texts_join script r0 0 = [] := by
  simp [texts_join]

theorem texts_join_succ (script : Nat → StreamRound) (r0 n : Nat) :
    texts_join script r0 (n + 1) =
      round_texts script r0 ++ texts_join script (r0 + 1) n := by
  simp only [texts_join, List.range_succ_eq_map, List.map_cons, List.flatten_cons,
    List.map_map, Nat.add_zero]
  congr 1
  refine congrArg List.flatten ?_
  refine List.map_congr_left (fun i _ => ?_)
  simp only [Function.comp_apply]
  congr 1
  omega

theorem streaming_clean {α : Type} (script : Nat → StreamRound)
    (custom : ConversationMessage → List (Turn α) → α)
    (registryH : String → ConversationMessage → List (Turn α) → α)
    (tc : Option ToolConfig) (t : String) (hd : dispatch_total tc = true) :
    ∀ (k fuel : Nat) (m : Int) (r0 : Nat) (msgs : List (Turn α))
      (fr : Option ConversationMessage),
      k < fuel →
      (∀ i, i < k → (script (r0 + i)).final.content.any hasToolUseBlock = true) →
      (script (r0 + k)).final.content.any hasToolUseBlock = false →
      first_block_text (script (r0 + k)).final.content = .ok t →
      (streaming_aux script custom registryH tc fuel m r0 msgs fr).chunks =
          texts_join script r0 (k + 1) ++
            [StreamChunk.finalMsg ⟨assistantRole, [mkTextBlock t]⟩] ∧
        (streaming_aux script custom registryH tc fuel m r0 msgs fr).error = none := by
  intro k
  induction k with
  | zero =>
    intro fuel m r0 msgs fr hk hpre h0 ht
    obtain ⟨f, rfl⟩ : ∃ f, fuel = f + 1 := ⟨fuel - 1, by omega⟩
    have hcr : consume_round (handle_streaming_response (script r0)).chunks fr =
        ((stream_scan (script r0).events).map StreamChunk.text,
          some ⟨assistantRole, (script r0).final.content⟩) :=
      consume_round_text_final _ _ _
    rw [Nat.add_zero] at h0 ht
    simp [streaming_aux, hcr, h0, ht, texts_join_succ, texts_join_zero, round_texts]
  | succ k ihk =>
    intro fuel m r0 msgs fr hk hpre h0 ht
    obtain ⟨f, rfl⟩ : ∃ f, fuel = f + 1 := ⟨fuel - 1, by omega⟩
    have hcr : consume_round (handle_streaming_response (script r0)).chunks fr =
        ((stream_scan (script r0).events).map StreamChunk.text,
          some ⟨assistantRole, (script r0).final.content⟩) :=
      consume_round_text_final _ _ _
    have h1 : (script r0).final.content.any hasToolUseBlock = true := by
      have := hpre 0 (by omega)
      simpa using this
    obtain ⟨tr, hp⟩ := dispatch_ok custom registryH tc hd
      (⟨assistantRole, (script r0).final.content⟩ : ConversationMessage)
      (msgs ++ [Turn.assistantBlocks (script r0).final.content])
    have ihr := ihk f (m - 1) (r0 + 1)
      ((msgs ++ [Turn.assistantBlocks (script r0).final.content]) ++ [Turn.toolResult tr])
      (some ⟨assistantRole, (script r0).final.content⟩)
      (by omega)
      (fun i hi => by
        have := hpre (i + 1) (by omega)
        rwa [show r0 + (i + 1) = r0 + 1 + i from by omega] at this)
      (by rwa [show r0 + (k + 1) = r0 + 1 + k from by omega] at h0)
      (by rwa [show r0 + (k + 1) = r0 + 1 + k from by omega] at ht)
    constructor
    · simp only [streaming_aux, hcr, h1, hp]
      simp only [texts_join_succ script r0 (k + 1)]
      rw [ihr.1]
      simp [round_texts]
    · simp only [streaming_aux, hcr, h1, hp]
      exact ihr.2

theorem stream_scan_stop (pre post : List StreamEvent) :
    stream_scan (pre ++ StreamEvent.contentBlockStop :: post) = stream_scan pre := by
  induction pre with
  | nil => simp [stream_scan]
  | cons e rest ih => cases e <;> simp [stream_scan, ih]

theorem takeWhile_word_append (name rest : List Char)
    (h : ∀ c ∈ name, isWordChar c = true) :
    (name ++ '\x7d' :: rest).takeWhile isWordChar = name := by
  induction name with
  | nil =>
    have hb : isWordChar '\x7d' = false := by decide
    simp [List.takeWhile_cons, hb]
  | cons c cs ih =>
    have hc : isWordChar c = true := h c (List.mem_cons_self c cs)
    simp [List.takeWhile_cons, hc,
      ih (fun d hd => h d (List.mem_cons_of_mem c hd))]

theorem dropWhile_word_append (name rest : List Char)
    (h : ∀ c ∈ name, isWordChar c = true) :
    (name ++ '\x7d' :: rest).dropWhile isWordChar = '\x7d' :: rest := by
  induction name with
  | nil =>
    have hb : isWordChar '\x7d' = false := by decide
    simp [List.dropWhile_cons, hb]
  | cons c cs ih =>
    have hc : isWordChar c = true := h c (List.mem_cons_self c cs)
    simp [List.dropWhile_cons, hc,
      ih (fun d hd => h d (List.mem_cons_of_mem c hd))]

theorem length_dropWhile_le_self (p : Char → Bool) (l : List Char) :
    (l.dropWhile p).length ≤ l.length := by
  induction l with
  | nil => simp [List.dropWhile]
  | cons a l ih =>
    by_cases h : p a = true
    · simp only [List.dropWhile_cons, h, if_true]
      exact Nat.le_succ_of_le ih
    · simp only [List.dropWhile_cons, h, if_false]
      exact Nat.le_refl _

theorem sub_fuel_cons2 (vars : List (String × TemplateValue)) (fuel : Nat)
    (c c2 : Char) (rest2 : List Char) :
    sub_fuel vars (fuel + 1) (c :: c2 :: rest2) =
      if c = '\x7b' ∧ c2 = '\x7b' then
        if rest2.takeWhile isWordChar ≠ [] ∧
            (rest2.dropWhile isWordChar).take 2 = ['\x7d', '\x7d'] then
          replace_match vars (rest2.takeWhile isWordChar) ++
            sub_fuel vars fuel ((rest2.dropWhile isWordChar).drop 2)
        else c :: sub_fuel vars fuel (c2 :: rest2)
      else c :: sub_fuel vars fuel (c2 :: rest2) := rfl

theorem sub_fuel_congr (vars : List (String × TemplateValue)) :
    ∀ (f1 f2 : Nat) (l : List Char), l.length ≤ f1 → l.length ≤ f2 →
      sub_fuel vars f1 l = sub_fuel vars f2 l := by
  intro f1
  induction f1 with
  | zero =>
    intro f2 l h1 _
    have hl : l = [] := List.length_eq_zero.mp (Nat.le_zero.mp h1)
    subst hl
    cases f2 <;> simp [sub_fuel]
  | succ f ih =>
    intro f2 l h1 h2
    rcases l with _ | ⟨c, _ | ⟨c2, rest2⟩⟩
    · cases f2 <;> simp [sub_fuel]
    · obtain ⟨g, rfl⟩ : ∃ g, f2 = g + 1 := ⟨f2 - 1, by simp at h2; omega⟩
      rfl
    · obtain ⟨g, rfl⟩ : ∃ g, f2 = g + 1 := ⟨f2 - 1, by simp at h2; omega⟩
      have hr1 : (c2 :: rest2).length ≤ f := by simp at h1 ⊢; omega
      have hr2 : (c2 :: rest2).length ≤ g := by simp at h2 ⊢; omega
      rw [sub_fuel_cons2, sub_fuel_cons2]
      by_cases hc : c = '\x7b' ∧ c2 = '\x7b'
      · rw [if_pos hc, if_pos hc]
        by_cases hcond : rest2.takeWhile isWordChar ≠ [] ∧
            (rest2.dropWhile isWordChar).take 2 = ['\x7d', '\x7d']
        · rw [if_pos hcond, if_pos hcond]
          congr 1
          have hdw := length_dropWhile_le_self isWordChar rest2
          have hld := List.length_drop 2 (rest2.dropWhile isWordChar)
          apply ih
          · have : rest2.length + 2 ≤ f + 1 := by simpa using h1
            omega
          · have : rest2.length + 2 ≤ g + 1 := by simpa using h2
            omega
        · rw [if_neg hcond, if_neg hcond]
          congr 1
          exact ih g (c2 :: rest2) hr1 hr2
      · rw [if_neg hc, if_neg hc]
        congr 1
        exact ih g (c2 :: rest2) hr1 hr2

theorem sub_chars_hit (vars : List (String × TemplateValue)) (name : List Char)
    (v : TemplateValue) (suf : List Char) (hne : name ≠ [])
    (hw : ∀ c ∈ name, isWordChar c = true)
    (hl : lookup_var vars (String.mk name) = some v) :
    sub_chars vars ('\x7b' :: '\x7b' :: (name ++ '\x7d' :: '\x7d' :: suf)) =
      (value_text v).toList ++ sub_chars vars suf := by
  have hlen : ('\x7b' :: '\x7b' :: (name ++ '\x7d' :: '\x7d' :: suf)).length =
      (name.length + suf.length + 3) + 1 := by simp; omega
  unfold sub_chars
  rw [hlen, sub_fuel_cons2]
  rw [if_pos ⟨rfl, rfl⟩]
  rw [takeWhile_word_append name ('\x7d' :: suf) hw,
    dropWhile_word_append name ('\x7d' :: suf) hw]
  rw [if_pos ⟨hne, rfl⟩]
  have hrm : replace_match vars name = (value_text v).toList := by
    simp [replace_match, hl]
  rw [hrm]
  congr 1
  rw [show ('\x7d' :: '\x7d' :: suf).drop 2 = suf from rfl]
  exact sub_fuel_congr vars (name.length + suf.length + 3) suf.length suf
    (by omega) (Nat.le_refl _)

theorem sub_chars_miss (vars : List (String × TemplateValue)) (name : List Char)
    (suf : List Char) (hne : name ≠ [])
    (hw : ∀ c ∈ name, isWordChar c = true)
    (hl : lookup_var vars (String.mk name) = none) :
    sub_chars vars ('\x7b' :: '\x7b' :: (name ++ '\x7d' :: '\x7d' :: suf)) =
      '\x7b' :: '\x7b' :: (name ++ '\x7d' :: '\x7d' :: sub_chars vars suf) := by
  have hlen : ('\x7b' :: '\x7b' :: (name ++ '\x7d' :: '\x7d' :: suf)).length =
      (name.length + suf.length + 3) + 1 := by simp; omega
  unfold sub_chars
  rw [hlen, sub_fuel_cons2]
  rw [if_pos ⟨rfl, rfl⟩]
  rw [takeWhile_word_append name ('\x7d' :: suf) hw,
    dropWhile_word_append name ('\x7d' :: suf) hw]
  rw [if_pos ⟨hne, rfl⟩]
  have hrm : replace_match vars name =
      '\x7b' :: '\x7b' :: (name ++ '\x7d' :: '\x7d' :: []) := by
    simp [replace_match, hl]
  rw [hrm]
  rw [show ('\x7d' :: '\x7d' :: suf).drop 2 = suf from rfl]
  have hrec : sub_fuel vars (name.length + suf.length + 3) suf =
      sub_fuel vars suf.length suf :=
    sub_fuel_congr vars (name.length + suf.length + 3) suf.length suf
      (by omega) (Nat.le_refl _)
  rw [hrec]
  simp

theorem sub_chars_step (vars : List (String × TemplateValue)) (c : Char)
    (rest : List Char) (hc : c ≠ '\x7b') :
    sub_chars vars (c :: rest) = c :: sub_chars vars rest := by
  cases rest with
  | nil => rfl
  | cons c2 rest2 =>
    unfold sub_chars
    rw [show (c :: c2 :: rest2).length = (c2 :: rest2).length + 1 from by simp]
    rw [sub_fuel_cons2]
    rw [if_neg (fun hand => hc hand.1)]

theorem single_aux_budget_one {α : Type} (script : Nat → SingleResponse)
    (custom : SingleResponse → List (Turn α) → α)
    (registryH : String → SingleResponse → List (Turn α) → α)
    (tc : Option ToolConfig) (m : Int) (r0 : Nat) (msgs : List (Turn α))
    (last : Option SingleResponse) :
    (single_loop_aux script custom registryH tc (0 + 1) m r0 msgs last).rounds = 1 ∧
    ((script r0).content.any hasToolUseBlock = false →
      (single_loop_aux script custom registryH tc (0 + 1) m r0 msgs last).result =
        final_from (some (script r0))) := by
  constructor
  · simp only [single_loop_aux]
    by_cases h : (script r0).content.any hasToolUseBlock = true
    · rw [if_pos h]
      cases hp : process_tool_block custom registryH tc (script r0)
          (msgs ++ [Turn.assistantBlocks (script r0).content]) with
      | error e => rfl
      | ok tr => rfl
    · rw [if_neg h]
  · intro h
    simp only [single_loop_aux]
    rw [if_neg (by simp [h])]

/-! ### Claim theorems -/

/-- C5: for every input processed with no tool configuration, the
recursion budget is 1 and the single-response loop performs exactly one
transport round; when that round's response carries no tool-use block and
its first block has text, the final assistant message surfaces that
text. -/
theorem C5_no_tools_one_round :
    get_max_recursions none = 1 ∧
    ∀ (α : Type) (script : Nat → SingleResponse)
      (custom : SingleResponse → List (Turn α) → α)
      (registryH : String → SingleResponse → List (Turn α) → α)
      (msgs : List (Turn α)),
      (handle_single_response_loop script custom registryH none msgs
        (get_max_recursions none)).rounds = 1 ∧
      ∀ t, (script 0).content.any hasToolUseBlock = false →
        first_block_text (script 0).content = .ok t →
        (handle_single_response_loop script custom registryH none msgs
          (get_max_recursions none)).result =
          .ok ⟨assistantRole, [mkTextBlock t]⟩ := by
  refine ⟨rfl, ?_⟩
  intro α script custom registryH msgs
  have h := single_aux_budget_one script custom registryH none 1 0 msgs none
  refine ⟨h.1, ?_⟩
  intro t hno htext
  have hr := h.2 hno
  show (single_loop_aux script custom registryH none (0 + 1) 1 0 msgs none).result = _
  rw [hr]
  simp [final_from, htext]

/-- C5 witness: a concrete tool-free run takes exactly one round and
returns the text of the response. -/
theorem C5_witness :
    (handle_single_response_loop textScript unitCustom unitRegistry none
      ([] : List (Turn Unit)) (get_max_recursions none)).rounds = 1 ∧
    (handle_single_response_loop textScript unitCustom unitRegistry none
      ([] : List (Turn Unit)) (get_max_recursions none)).result =
      .ok ⟨assistantRole, [mkTextBlock "4"]⟩ := by
  have h := C5_no_tools_one_round.2 Unit textScript unitCustom unitRegistry []
  exact ⟨h.1, h.2 "4" (by decide) (by decide)⟩

/-- C6: tool dispatch resolution order — a configured custom handler is
called with the response and the conversation and its result returned
verbatim; otherwise an `AgentTools` registry dispatches through its
built-in handler with the provider tag; otherwise a `ValueError` is
raised. -/
theorem C6_tool_dispatch_order {ρ α : Type} (custom : ρ → List (Turn α) → α)
    (registryH : String → ρ → List (Turn α) → α) (cfg : ToolConfig)
    (resp : ρ) (conv : List (Turn α)) :
    (cfg.useToolHandler = true →
      process_tool_block custom registryH (some cfg) resp conv =
        .ok (custom resp conv)) ∧
    (cfg.useToolHandler = false → cfg.tool = .registry →
      process_tool_block custom registryH (some cfg) resp conv =
        .ok (registryH anthropicProvider resp conv)) ∧
    (cfg.useToolHandler = false → cfg.tool ≠ .registry →
      process_tool_block custom registryH (some cfg) resp conv =
        .error .valueError) := by
  refine ⟨?_, ?_, ?_⟩
  · intro h
    simp [process_tool_block, h]
  · intro h ht
    simp [process_tool_block, h, ht]
  · intro h ht
    cases hf : cfg.tool with
    | registry => exact absurd hf ht
    | rawList => simp [process_tool_block, h, hf]
    | invalid => simp [process_tool_block, h, hf]

/-- C6 witness: a raw tool list with no custom handler raises
`ValueError` on dispatch. -/
theorem C6_witness :
    process_tool_block unitCustom unitRegistry (some rawCfgTwo)
      (⟨[]⟩ : SingleResponse) ([] : List (Turn Unit)) = .error .valueError :=
  (C6_tool_dispatch_order unitCustom unitRegistry rawCfgTwo ⟨[]⟩ []).2.2
    rfl (by decide)

/-- C9: within one streamed round, event consumption stops at the first
`content_block_stop` event — events after it are never forwarded and the
per-token hook is never invoked for them (the output of
`handle_streaming_response` does not depend on them at all). -/
theorem C9_stop_ends_round :
    ∀ (pre post : List StreamEvent) (fin : SingleResponse),
      stream_scan (pre ++ StreamEvent.contentBlockStop :: post) = stream_scan pre ∧
      handle_streaming_response ⟨pre ++ StreamEvent.contentBlockStop :: post, fin⟩ =
        handle_streaming_response ⟨pre, fin⟩ := by
  intro pre post fin
  have h := stream_scan_stop pre post
  exact ⟨h, by simp [handle_streaming_response, h]⟩

/-- C10: construction fails with `ValueError` exactly when no API key and
no client is given, or a provided client does not match the streaming
flag; otherwise it succeeds with a client of the kind selected by the
streaming flag. -/
theorem C10_init_validation :
    ∀ (apiKey : Bool) (client : Option ClientKind) (streaming : Bool),
      agent_init apiKey client streaming = agent_init_claim apiKey client streaming := by
  intro k c s
  cases c with
  | none => cases k <;> cases s <;> decide
  | some cc => cases cc <;> cases k <;> cases s <;> decide

/-- C2 counterexample: with a raw tool list, no custom handler, and a
first response containing a tool-use block, the configuration
`ValueError` is raised only after one transport call was already made —
not before any transport call as the claim states. -/
theorem C2_counterexample :
    (handle_single_response_loop toolOnlyScript unitCustom unitRegistry
        (some rawCfgTwo) ([] : List (Turn Unit))
        (get_max_recursions (some rawCfgTwo))).result = .error .valueError ∧
    (handle_single_response_loop toolOnlyScript unitCustom unitRegistry
        (some rawCfgTwo) ([] : List (Turn Unit))
        (get_max_recursions (some rawCfgTwo))).rounds = 1 := by
  decide

/-- C2 (amended): with a raw tool list and no custom handler, request
assembly succeeds; processing raises `ValueError` at the first round
whose response contains a tool-use block, after that round's transport
call (and without invoking any tool handler) — not before any transport
call. -/
theorem C2_raw_list_error_after_first_call {α : Type}
    (script : Nat → SingleResponse)
    (custom : SingleResponse → List (Turn α) → α)
    (registryH : String → SingleResponse → List (Turn α) → α)
    (mr : Option Int) (msgs : List (Turn α)) :
    prepare_tool_config .rawList = .ok () ∧
    (0 < (get_max_recursions (some ⟨.rawList, mr, false⟩)).toNat →
      (script 0).content.any hasToolUseBlock = true →
      (handle_single_response_loop script custom registryH
          (some ⟨.rawList, mr, false⟩) msgs
          (get_max_recursions (some ⟨.rawList, mr, false⟩))).rounds = 1 ∧
      (handle_single_response_loop script custom registryH
          (some ⟨.rawList, mr, false⟩) msgs
          (get_max_recursions (some ⟨.rawList, mr, false⟩))).toolCalls = 0 ∧
      (handle_single_response_loop script custom registryH
          (some ⟨.rawList, mr, false⟩) msgs
          (get_max_recursions (some ⟨.rawList, mr, false⟩))).result =
        .error .valueError) := by
  refine ⟨rfl, ?_⟩
  intro hpos ht
  obtain ⟨f, hf⟩ : ∃ f,
      (get_max_recursions (some ⟨.rawList, mr, false⟩)).toNat = f + 1 :=
    ⟨(get_max_recursions (some ⟨.rawList, mr, false⟩)).toNat - 1, by omega⟩
  unfold handle_single_response_loop
  rw [hf]
  simp only [single_loop_aux]
  rw [if_pos ht]
  have hp : process_tool_block custom registryH (some ⟨.rawList, mr, false⟩)
      (script 0) (msgs ++ [Turn.assistantBlocks (script 0).content]) =
        .error .valueError := rfl
  rw [hp]
  exact ⟨rfl, rfl, rfl⟩

/-- C2 witness: the amended statement at a concrete raw-list
configuration and a concrete tool-use response. -/
theorem C2_witness :
    (handle_single_response_loop toolOnlyScript unitCustom unitRegistry
        (some ⟨.rawList, some 2, false⟩) ([] : List (Turn Unit))
        (get_max_recursions (some ⟨.rawList, some 2, false⟩))).rounds = 1 ∧
    (handle_single_response_loop toolOnlyScript unitCustom unitRegistry
        (some ⟨.rawList, some 2, false⟩) ([] : List (Turn Unit))
        (get_max_recursions (some ⟨.rawList, some 2, false⟩))).toolCalls = 0 ∧
    (handle_single_response_loop toolOnlyScript unitCustom unitRegistry
        (some ⟨.rawList, some 2, false⟩) ([] : List (Turn Unit))
        (get_max_recursions (some ⟨.rawList, some 2, false⟩))).result =
      .error .valueError :=
  (C2_raw_list_error_after_first_call toolOnlyScript unitCustom unitRegistry
    (some 2) []).2 (by decide) (by decide)

/-- C3 counterexample: `toolMaxRecursions = 1`, the response is a bare
tool-use block — the loop does terminate after one transport call, but
building the final message raises `AttributeError` instead of returning
a message, because the first content block has no text field. -/
theorem C3_counterexample :
    (handle_single_response_loop toolOnlyScript unitCustom unitRegistry
        (some regCfgOne) ([] : List (Turn Unit))
        (get_max_recursions (some regCfgOne))).result =
      .error .attributeError ∧
    (handle_single_response_loop toolOnlyScript unitCustom unitRegistry
        (some regCfgOne) ([] : List (Turn Unit))
        (get_max_recursions (some regCfgOne))).rounds = 1 := by
  decide

/-- C3 (amended): with tools configured, `toolMaxRecursions = 1`, a
working dispatch and a tool-use response, the loop performs exactly one
transport call, dispatches the tool exactly once (never a second time)
and terminates; when the first content block of the last response
carries text, that text is returned as the final assistant message
(when it carries no text, an `AttributeError` is raised instead). -/
theorem C3_budget_one_truncates {α : Type} (script : Nat → SingleResponse)
    (custom : SingleResponse → List (Turn α) → α)
    (registryH : String → SingleResponse → List (Turn α) → α)
    (cfg : ToolConfig) (msgs : List (Turn α)) (t : String)
    (hmr : cfg.toolMaxRecursions = some 1)
    (hd : dispatch_total (some cfg) = true)
    (ht : (script 0).content.any hasToolUseBlock = true)
    (htext : first_block_text (script 0).content = .ok t) :
    (handle_single_response_loop script custom registryH (some cfg) msgs
        (get_max_recursions (some cfg))).rounds = 1 ∧
    (handle_single_response_loop script custom registryH (some cfg) msgs
        (get_max_recursions (some cfg))).toolCalls = 1 ∧
    (handle_single_response_loop script custom registryH (some cfg) msgs
        (get_max_recursions (some cfg))).result =
      .ok ⟨assistantRole, [mkTextBlock t]⟩ := by
  have hbud : get_max_recursions (some cfg) = 1 := by
    simp [get_max_recursions, hmr]
  unfold handle_single_response_loop
  rw [hbud]
  rw [show (1 : Int).toNat = 0 + 1 from rfl]
  simp only [single_loop_aux]
  rw [if_pos ht]
  obtain ⟨v, hp⟩ := dispatch_ok custom registryH (some cfg) hd (script 0)
    (msgs ++ [Turn.assistantBlocks (script 0).content])
  rw [hp]
  refine ⟨rfl, rfl, ?_⟩
  show final_from (some (script 0)) = _
  simp [final_from, htext]

/-- C3 witness: the amended statement at a concrete mixed text/tool-use
response. -/
theorem C3_witness :
    (handle_single_response_loop mixedToolScript unitCustom unitRegistry
        (some regCfgOne) ([] : List (Turn Unit))
        (get_max_recursions (some regCfgOne))).rounds = 1 ∧
    (handle_single_response_loop mixedToolScript unitCustom unitRegistry
        (some regCfgOne) ([] : List (Turn Unit))
        (get_max_recursions (some regCfgOne))).toolCalls = 1 ∧
    (handle_single_response_loop mixedToolScript unitCustom unitRegistry
        (some regCfgOne) ([] : List (Turn Unit))
        (get_max_recursions (some regCfgOne))).result =
      .ok ⟨assistantRole, [mkTextBlock "partial"]⟩ :=
  C3_budget_one_truncates mixedToolScript unitCustom unitRegistry regCfgOne []
    "partial" (by decide) (by decide) (by decide) (by decide)

/-- C4 counterexample: `toolMaxRecursions = 1` and the single response
has no tool-use block — the loop performs exactly `toolMaxRecursions`
rounds (not fewer), although a performed round's response contained no
tool-use block, refuting the claimed biconditional at its boundary. -/
theorem C4_counterexample :
    (handle_single_response_loop textScript unitCustom unitRegistry
        (some regCfgOne) ([] : List (Turn Unit))
        (get_max_recursions (some regCfgOne))).rounds =
      (get_max_recursions (some regCfgOne)).toNat ∧
    (textScript 0).content.any hasToolUseBlock = false := by
  decide

/-- C4 (amended): the loop performs at most `toolMaxRecursions` transport
rounds; when every tool dispatch succeeds (custom handler or registry
configured), it performs fewer than `toolMaxRecursions` rounds iff some
response with no tool-use block occurs at a round index strictly below
`toolMaxRecursions - 1` positions before the budget runs out, i.e. iff
there is an `i` with `i + 1 < toolMaxRecursions` whose response has no
tool-use block. -/
theorem C4_round_bound {α : Type} (script : Nat → SingleResponse)
    (custom : SingleResponse → List (Turn α) → α)
    (registryH : String → SingleResponse → List (Turn α) → α)
    (cfg : ToolConfig) (msgs : List (Turn α)) :
    (handle_single_response_loop script custom registryH (some cfg) msgs
        (get_max_recursions (some cfg))).rounds ≤
      (get_max_recursions (some cfg)).toNat ∧
    (dispatch_total (some cfg) = true →
      ((handle_single_response_loop script custom registryH (some cfg) msgs
          (get_max_recursions (some cfg))).rounds <
          (get_max_recursions (some cfg)).toNat ↔
        ∃ i, i + 1 < (get_max_recursions (some cfg)).toNat ∧
          (script i).content.any hasToolUseBlock = false)) := by
  constructor
  · exact single_aux_rounds_le script custom registryH (some cfg)
      (get_max_recursions (some cfg)).toNat (get_max_recursions (some cfg))
      0 msgs none
  · intro hd
    have h := single_aux_lt_iff script custom registryH (some cfg) hd
      (get_max_recursions (some cfg)).toNat (get_max_recursions (some cfg))
      0 msgs none
    simpa using h

/-- C4 witness: with budget 2 and an immediate no-tool-use response the
loop stops strictly below the budget. -/
theorem C4_witness :
    (handle_single_response_loop textScript unitCustom unitRegistry
        (some regCfgTwo) ([] : List (Turn Unit))
        (get_max_recursions (some regCfgTwo))).rounds <
      (get_max_recursions (some regCfgTwo)).toNat := by
  have h := (C4_round_bound textScript unitCustom unitRegistry regCfgTwo
    ([] : List (Turn Unit))).2 (by decide)
  exact h.mpr ⟨0, by decide, by decide⟩

/-- C8: starting from any positive budget, the `max_recursions` counter
stays nonnegative after every decrement, in both the single-response
loop and the streaming loop. -/
theorem C8_counters_nonneg {α : Type} (s1 : Nat → SingleResponse)
    (sc : Nat → StreamRound)
    (c1 : SingleResponse → List (Turn α) → α)
    (r1 : String → SingleResponse → List (Turn α) → α)
    (c2 : ConversationMessage → List (Turn α) → α)
    (r2 : String → ConversationMessage → List (Turn α) → α)
    (tc : Option ToolConfig) (msgs1 msgs2 : List (Turn α)) (budget : Int)
    (_hpos : 0 < budget) :
    (∀ v ∈ (handle_single_response_loop s1 c1 r1 tc msgs1 budget).counters,
      0 ≤ v) ∧
    (∀ v ∈ (handle_streaming sc c2 r2 tc msgs2 budget).counters, 0 ≤ v) :=
  ⟨single_aux_counters_nonneg s1 c1 r1 tc budget.toNat budget 0 msgs1 none
      (Nat.le_refl _),
    streaming_aux_counters_nonneg sc c2 r2 tc budget.toNat budget 0 msgs2 none
      (Nat.le_refl _)⟩

/-- C8 witness: the first recorded counter value of a concrete two-round
run is nonnegative. -/
theorem C8_witness :
    (0 : Int) ≤ (handle_single_response_loop toolOnlyScript unitCustom
      unitRegistry (some regCfgTwo) ([] : List (Turn Unit)) 2).counters.headI := by
  have h := (C8_counters_nonneg toolOnlyScript c1Script unitCustom unitRegistry
    unitCustomS unitRegistryS (some regCfgTwo) [] [] 2 (by decide)).1
  exact h _ (by decide)

/-- C1 counterexample: streaming with `toolMaxRecursions = 1` and a
transport that always requests tools — the text fragment is forwarded
but the generator ends without ever emitting a terminal chunk, refuting
"exactly one terminal chunk ... even when the recursion budget is
exhausted". -/
theorem C1_counterexample :
    (handle_streaming c1Script unitCustomS unitRegistryS (some regCfgOne)
        ([] : List (Turn Unit)) (get_max_recursions (some regCfgOne))).chunks =
      [StreamChunk.text "a"] ∧
    ((handle_streaming c1Script unitCustomS unitRegistryS (some regCfgOne)
        ([] : List (Turn Unit)) (get_max_recursions (some regCfgOne))).chunks.countP
      isFinalChunk) = 0 := by
  decide

/-- C1 (amended): in streaming mode with a working tool dispatch, if some
round within the recursion budget produces a final message without
tool-use whose first block carries text, the yielded chunk sequence is
exactly the forwarded text fragments of all rounds in arrival order
followed by one terminal chunk carrying the final assistant message (and
no error).  When the budget is exhausted while the model still requests
tools, no terminal chunk is emitted at all (see the counterexample). -/
theorem C1_streaming_chunk_shape {α : Type} (script : Nat → StreamRound)
    (custom : ConversationMessage → List (Turn α) → α)
    (registryH : String → ConversationMessage → List (Turn α) → α)
    (tc : Option ToolConfig) (msgs : List (Turn α)) (m : Int) (k : Nat)
    (t : String)
    (hd : dispatch_total tc = true)
    (hk : k < m.toNat)
    (hpre : ∀ i, i < k → (script i).final.content.any hasToolUseBlock = true)
    (h0 : (script k).final.content.any hasToolUseBlock = false)
    (ht : first_block_text (script k).final.content = .ok t) :
    (handle_streaming script custom registryH tc msgs m).chunks =
      texts_join script 0 (k + 1) ++
        [StreamChunk.finalMsg ⟨assistantRole, [mkTextBlock t]⟩] ∧
    (handle_streaming script custom registryH tc msgs m).error = none := by
  unfold handle_streaming
  exact streaming_clean script custom registryH tc t hd k m.toNat m 0 msgs none
    hk
    (fun i hi => by simpa using hpre i hi)
    (by simpa using h0)
    (by simpa using ht)

/-- C1 witness: a concrete two-round streaming run — one tool round, one
text round — yields the two text fragments followed by exactly one
terminal chunk. -/
theorem C1_witness :
    (handle_streaming c1wScript unitCustomS unitRegistryS (some regCfgFive)
        ([] : List (Turn Unit)) 5).chunks =
      [StreamChunk.text "a", StreamChunk.text "b",
        StreamChunk.finalMsg ⟨assistantRole, [mkTextBlock "done"]⟩] := by
  have h := C1_streaming_chunk_shape c1wScript unitCustomS unitRegistryS
    (some regCfgFive) ([] : List (Turn Unit)) 5 1 "done" (by decide) (by decide)
    (fun i hi => by
      have hi0 : i = 0 := by omega
      subst hi0
      decide)
    (by decide) (by decide)
  exact h.1.trans (by decide)

/-- C7: placeholder substitution replaces a `\x7b\x7bname\x7d\x7d`
placeholder whose name is in the mapping by the variable's value (list
values joined with newlines), leaves a placeholder whose name is not in
the mapping verbatim without error, copies any non-brace character
unchanged, and in particular maps `"I am \x7b\x7bname\x7d\x7d"` with
`name = "Bot"` to `"I am Bot"` and leaves `"\x7b\x7bmissing\x7d\x7d"`
literal. -/
theorem C7_replace_placeholders_spec :
    (∀ (vars : List (String × TemplateValue)) (name : List Char)
        (v : TemplateValue) (suf : List Char),
      name ≠ [] → (∀ c ∈ name, isWordChar c = true) →
      lookup_var vars (String.mk name) = some v →
      sub_chars vars ('\x7b' :: '\x7b' :: (name ++ '\x7d' :: '\x7d' :: suf)) =
        (value_text v).toList ++ sub_chars vars suf) ∧
    (∀ (vars : List (String × TemplateValue)) (name : List Char)
        (suf : List Char),
      name ≠ [] → (∀ c ∈ name, isWordChar c = true) →
      lookup_var vars (String.mk name) = none →
      sub_chars vars ('\x7b' :: '\x7b' :: (name ++ '\x7d' :: '\x7d' :: suf)) =
        '\x7b' :: '\x7b' :: (name ++ '\x7d' :: '\x7d' :: sub_chars vars suf)) ∧
    (∀ (vars : List (String × TemplateValue)) (c : Char) (rest : List Char),
      c ≠ '\x7b' → sub_chars vars (c :: rest) = c :: sub_chars vars rest) ∧
    replace_placeholders "I am \x7b\x7bname\x7d\x7d"
      [("name", .str "Bot")] = "I am Bot" ∧
    replace_placeholders "\x7b\x7bmissing\x7d\x7d"
      [("name", .str "Bot")] = "\x7b\x7bmissing\x7d\x7d" ∧
    replace_placeholders "\x7b\x7bxs\x7d\x7d"
      [("xs", .items ["a", "b"])] = "a\nb" :=
  ⟨sub_chars_hit, sub_chars_miss, sub_chars_step,
    by decide, by decide, by decide⟩

/-- C7 witness: the hit clause applied to the concrete placeholder
`\x7b\x7bname\x7d\x7d` with mapping `name = "Bot"`. -/
theorem C7_witness :
    sub_chars [("name", TemplateValue.str "Bot")]
        ('\x7b' :: '\x7b' :: (['n', 'a', 'm', 'e'] ++ '\x7d' :: '\x7d' :: [])) =
      "Bot".toList := by
  have h := C7_replace_placeholders_spec.1 [("name", TemplateValue.str "Bot")]
    ['n', 'a', 'm', 'e'] (TemplateValue.str "Bot") [] (by decide) (by decide)
    (by decide)
  exact h.trans (by decide)

end AnthropicAgent
